import Mathlib

/-!
Verification of the statistics engine of the correlation-demo scatter-plot
playground (`src/components/ScatterPlotPlayground.jsx`).

The component keeps an insertion-ordered list of points with coordinates in
the plot domain.  Two pure functions, `calculateCorrelation` and
`calculateRegression`, recompute the Pearson correlation coefficient and the
least-squares regression line from scratch on every change of the point list.

Embedding choices:
* JavaScript numbers are modelled by exact arithmetic: point coordinates and
  all accumulated sums are rationals (`ℚ`); the correlation coefficient, whose
  denominator is a `Math.sqrt`, lives in `ℝ`.
* `Array.prototype.reduce` with initial accumulator `0` is `List.foldl`.
* The display-only `toFixed` formatting of the step records is not modelled;
  the step records carry the underlying numbers (the spec states the rounded
  strings are for presentation only, and no claim depends on their text).
-/

open Finset

/-- A point placed on the scatter plot. -/
structure Point where
  x : ℚ
  y : ℚ
deriving DecidableEq

/-- Single-pass accumulation of Σx, mirroring `points.reduce((acc, p) => acc + p.x, 0)`. -/
def sumX (points : List Point) : ℚ :=
  points.foldl (fun acc p => acc + p.x) 0

/-- Single-pass accumulation of Σy, mirroring `points.reduce((acc, p) => acc + p.y, 0)`. -/
def sumY (points : List Point) : ℚ :=
  points.foldl (fun acc p => acc + p.y) 0

/-- Single-pass accumulation of Σxy, mirroring `points.reduce((acc, p) => acc + p.x * p.y, 0)`. -/
def sumXY (points : List Point) : ℚ :=
  points.foldl (fun acc p => acc + p.x * p.y) 0

/-- Single-pass accumulation of Σx², mirroring `points.reduce((acc, p) => acc + p.x * p.x, 0)`. -/
def sumXSquare (points : List Point) : ℚ :=
  points.foldl (fun acc p => acc + p.x * p.x) 0

/-- Single-pass accumulation of Σy², mirroring `points.reduce((acc, p) => acc + p.y * p.y, 0)`. -/
def sumYSquare (points : List Point) : ℚ :=
  points.foldl (fun acc p => acc + p.y * p.y) 0

/-- The mean of the y values, `yMean = sumY / n`. -/
def yMean (points : List Point) : ℚ :=
  sumY points / (points.length : ℚ)

/-- Mirrors `points.some((p) => Math.abs(p.y - yMean) > 0.0001)`. -/
def hasYVariation (points : List Point) : Bool :=
  points.any (fun p => decide (|p.y - yMean points| > 1 / 10000))

/-- The correlation numerator `n * sumXY - sumX * sumY`. -/
def corrNumerator (points : List Point) : ℚ :=
  (points.length : ℚ) * sumXY points - sumX points * sumY points

/-- The x factor `n * sumXSquare - sumX * sumX` appearing under the correlation
square root; the identical expression is the regression denominator. -/
def denomX (points : List Point) : ℚ :=
  (points.length : ℚ) * sumXSquare points - sumX points * sumX points

/-- The y factor `n * sumYSquare - sumY * sumY` appearing under the correlation
square root. -/
def denomY (points : List Point) : ℚ :=
  (points.length : ℚ) * sumYSquare points - sumY points * sumY points

/-- The correlation denominator
`Math.sqrt((n * sumXSquare - sumX * sumX) * (n * sumYSquare - sumY * sumY))`. -/
noncomputable def corrDenominator (points : List Point) : ℝ :=
  Real.sqrt ((denomX points * denomY points : ℚ) : ℝ)

/-- The intermediate-step record built by `calculateCorrelation` (the source
additionally formats each number with `toFixed` for display). -/
structure CorrSteps where
  n : ℕ
  sumX : ℚ
  sumY : ℚ
  sumXY : ℚ
  sumXSquare : ℚ
  sumYSquare : ℚ
  numerator : ℚ
  denominator : ℝ

/-- Return value of `calculateCorrelation`: `{ correlation, steps }`. -/
structure CorrelationResult where
  correlation : Option ℝ
  steps : Option CorrSteps

/-- The Pearson-correlation computation of the component, translated branch by
branch from `calculateCorrelation` in `ScatterPlotPlayground.jsx`. -/
noncomputable def calculateCorrelation (points : List Point) : CorrelationResult :=
  if points.length < 3 then ⟨none, none⟩
  else if !hasYVariation points then ⟨some 0, none⟩
  else if |corrDenominator points| < 1 / 10000 then ⟨some 0, none⟩
  else
    ⟨some (if corrDenominator points = 0 then 0
           else (corrNumerator points : ℝ) / corrDenominator points),
     some ⟨points.length, sumX points, sumY points, sumXY points, sumXSquare points,
           sumYSquare points, corrNumerator points, corrDenominator points⟩⟩

/-- The regression line `{ slope, intercept }`. -/
structure Line where
  slope : ℚ
  intercept : ℚ
deriving DecidableEq

/-- The regression slope `(n * sumXY - sumX * sumY) / denominator`. -/
def regSlope (points : List Point) : ℚ :=
  ((points.length : ℚ) * sumXY points - sumX points * sumY points) / denomX points

/-- The regression intercept `(sumY - slope * sumX) / n`. -/
def regIntercept (points : List Point) : ℚ :=
  (sumY points - regSlope points * sumX points) / (points.length : ℚ)

/-- The intermediate-step record built by `calculateRegression`. -/
structure RegSteps where
  n : ℕ
  sumX : ℚ
  sumY : ℚ
  sumXY : ℚ
  sumXSquare : ℚ
  slope : ℚ
  intercept : ℚ
  slopeNumerator : ℚ
  slopeDenominator : ℚ
deriving DecidableEq

/-- Return value of `calculateRegression`: `{ line, steps }`. -/
structure RegressionResult where
  line : Option Line
  steps : Option RegSteps
deriving DecidableEq

/-- The least-squares regression computation of the component, translated branch
by branch from `calculateRegression` in `ScatterPlotPlayground.jsx`. -/
def calculateRegression (points : List Point) : RegressionResult :=
  if points.length < 3 then ⟨none, none⟩
  else if denomX points = 0 then ⟨none, none⟩
  else
    ⟨some ⟨regSlope points, regIntercept points⟩,
     some ⟨points.length, sumX points, sumY points, sumXY points, sumXSquare points,
           regSlope points, regIntercept points,
           (points.length : ℚ) * sumXY points - sumX points * sumY points,
           denomX points⟩⟩

/-- The point-insertion logic of `handlePlotClick`: the click coordinates are
appended to the list unless a point with exactly equal `x` and `y` is already
present (`points.some((p) => p.x === x && p.y === y)`). -/
def addPoint (points : List Point) (x y : ℚ) : List Point :=
  if points.any (fun p => decide (p.x = x) && decide (p.y = y)) then points
  else points ++ [⟨x, y⟩]

/-- The component state touched by the recomputation effect: the point list and
the four pieces of derived state published from it. -/
structure PlaygroundState where
  points : List Point
  correlation : Option ℝ
  calculationSteps : Option CorrSteps
  regressionLine : Option Line
  regressionSteps : Option RegSteps

/-- The `useEffect` body: recompute both results from the current point list and
republish every piece of derived state. -/
noncomputable def recompute (s : PlaygroundState) : PlaygroundState :=
  ⟨s.points,
   (calculateCorrelation s.points).correlation,
   (calculateCorrelation s.points).steps,
   (calculateRegression s.points).line,
   (calculateRegression s.points).steps⟩

/-- Folding `acc + f p` over a list starting from `a` adds the sum of the mapped list. -/
theorem foldl_add_eq (f : Point → ℚ) (a : ℚ) (l : List Point) :
    l.foldl (fun acc p => acc + f p) a = a + (l.map f).sum := by
  induction l generalizing a with
  | nil => simp
  | cons p l ih => rw [List.foldl_cons, ih, List.map_cons, List.sum_cons]; ring

/-- A mapped list sum as a sum over the index type. -/
theorem map_sum_eq_fin_sum (f : Point → ℚ) (l : List Point) :
    (l.map f).sum = ∑ i : Fin l.length, f (l.get i) := by
  conv_lhs => rw [← List.ofFn_get l, List.map_ofFn, List.sum_ofFn]
  rfl

/-- The single-pass accumulations as indexed sums. -/
theorem sum_foldl_eq (f : Point → ℚ) (l : List Point) :
    l.foldl (fun acc p => acc + f p) 0 = ∑ i : Fin l.length, f (l.get i) := by
  rw [foldl_add_eq, zero_add, map_sum_eq_fin_sum]

theorem sumX_eq (points : List Point) :
    sumX points = ∑ i : Fin points.length, (points.get i).x :=
  sum_foldl_eq (fun p => p.x) points

theorem sumY_eq (points : List Point) :
    sumY points = ∑ i : Fin points.length, (points.get i).y :=
  sum_foldl_eq (fun p => p.y) points

theorem sumXY_eq (points : List Point) :
    sumXY points = ∑ i : Fin points.length, (points.get i).x * (points.get i).y :=
  sum_foldl_eq (fun p => p.x * p.y) points

theorem sumXSquare_eq (points : List Point) :
    sumXSquare points = ∑ i : Fin points.length, (points.get i).x * (points.get i).x :=
  sum_foldl_eq (fun p => p.x * p.x) points

theorem sumYSquare_eq (points : List Point) :
    sumYSquare points = ∑ i : Fin points.length, (points.get i).y * (points.get i).y :=
  sum_foldl_eq (fun p => p.y * p.y) points

/-- Cauchy-Schwarz in the scaled form used by the Pearson formula:
`(n·Σxy − Σx·Σy)² ≤ (n·Σx² − (Σx)²)·(n·Σy² − (Σy)²)`. -/
theorem cauchy_key (n : ℕ) (X Y : Fin n → ℚ) :
    ((n : ℚ) * ∑ i, X i * Y i - (∑ i, X i) * (∑ i, Y i)) ^ 2 ≤
      ((n : ℚ) * ∑ i, X i * X i - (∑ i, X i) * (∑ i, X i)) *
        ((n : ℚ) * ∑ i, Y i * Y i - (∑ i, Y i) * (∑ i, Y i)) := by
  have expand : ∀ f g : Fin n → ℚ,
      ∑ i, ((n : ℚ) * f i - ∑ j, f j) * ((n : ℚ) * g i - ∑ j, g j) =
        (n : ℚ) * ((n : ℚ) * ∑ i, f i * g i - (∑ i, f i) * (∑ i, g i)) := by
    intro f g
    have h1 : ∀ i ∈ univ (α := Fin n),
        ((n : ℚ) * f i - ∑ j, f j) * ((n : ℚ) * g i - ∑ j, g j) =
          (n : ℚ) ^ 2 * (f i * g i) - ((n : ℚ) * ∑ j, g j) * f i
            - ((n : ℚ) * ∑ j, f j) * g i + (∑ j, f j) * (∑ j, g j) := by
      intro i _
      ring
    rw [Finset.sum_congr rfl h1]
    simp only [Finset.sum_add_distrib, Finset.sum_sub_distrib, ← Finset.mul_sum,
      Finset.sum_const, Finset.card_univ, Fintype.card_fin, nsmul_eq_mul]
    ring
  have hcs := Finset.sum_mul_sq_le_sq_mul_sq univ
    (fun i => (n : ℚ) * X i - ∑ j, X j) (fun i => (n : ℚ) * Y i - ∑ j, Y j)
  have e1 := expand X Y
  have e2 : ∑ i, ((n : ℚ) * X i - ∑ j, X j) ^ 2 =
      (n : ℚ) * ((n : ℚ) * ∑ i, X i * X i - (∑ i, X i) * (∑ i, X i)) := by
    simp only [sq]
    exact expand X X
  have e3 : ∑ i, ((n : ℚ) * Y i - ∑ j, Y j) ^ 2 =
      (n : ℚ) * ((n : ℚ) * ∑ i, Y i * Y i - (∑ i, Y i) * (∑ i, Y i)) := by
    simp only [sq]
    exact expand Y Y
  rw [e1, e2, e3] at hcs
  rcases Nat.eq_zero_or_pos n with h0 | hpos
  · subst h0
    simp
  · have h2 : (n : ℚ) ^ 2 *
        (((n : ℚ) * ∑ i, X i * Y i - (∑ i, X i) * (∑ i, Y i)) ^ 2) ≤
          (n : ℚ) ^ 2 *
        (((n : ℚ) * ∑ i, X i * X i - (∑ i, X i) * (∑ i, X i)) *
          ((n : ℚ) * ∑ i, Y i * Y i - (∑ i, Y i) * (∑ i, Y i))) := by
      calc (n : ℚ) ^ 2 * (((n : ℚ) * ∑ i, X i * Y i - (∑ i, X i) * (∑ i, Y i)) ^ 2)
          = ((n : ℚ) * ((n : ℚ) * ∑ i, X i * Y i - (∑ i, X i) * (∑ i, Y i))) ^ 2 := by ring
        _ ≤ _ := hcs
        _ = _ := by ring
    have hnpos : (0 : ℚ) < (n : ℚ) ^ 2 := by positivity
    exact le_of_mul_le_mul_left h2 hnpos

/-- The square of the correlation numerator is bounded by the product under the
square root of the denominator. -/
theorem corrNumerator_sq_le (points : List Point) :
    corrNumerator points ^ 2 ≤ denomX points * denomY points := by
  rw [corrNumerator, denomX, denomY, sumX_eq, sumY_eq, sumXY_eq, sumXSquare_eq, sumYSquare_eq]
  exact cauchy_key points.length (fun i => (points.get i).x) (fun i => (points.get i).y)

/-- The product under the correlation square root is nonnegative. -/
theorem denom_prod_nonneg (points : List Point) :
    0 ≤ denomX points * denomY points :=
  le_trans (sq_nonneg _) (corrNumerator_sq_le points)

/-- C1: for every point sequence with fewer than 3 points, `calculateCorrelation`
returns `{ correlation: null, steps: null }` and `calculateRegression` returns
`{ line: null, steps: null }`. -/
theorem fewer_than_three_points_null (points : List Point) (h : points.length < 3) :
    calculateCorrelation points = ⟨none, none⟩ ∧
      calculateRegression points = ⟨none, none⟩ := by
  constructor
  · rw [calculateCorrelation, if_pos h]
  · rw [calculateRegression, if_pos h]

theorem fewer_than_three_points_null_witness :
    calculateCorrelation [⟨1, 2⟩, ⟨3, 4⟩] = ⟨none, none⟩ ∧
      calculateRegression [⟨1, 2⟩, ⟨3, 4⟩] = ⟨none, none⟩ :=
  fewer_than_three_points_null [⟨1, 2⟩, ⟨3, 4⟩] (by decide)

/-- C2: for at least 3 points, when the regression denominator `n·Σx² − (Σx)²`
is nonzero the returned line has slope `(n·Σxy − Σx·Σy) / (n·Σx² − (Σx)²)` and
intercept `(Σy − slope·Σx) / n`, the sums being single-pass accumulations; when
that denominator is exactly 0 the result is `{ line: null, steps: null }`. -/
theorem regression_formula (points : List Point) (h3 : 3 ≤ points.length) :
    (denomX points ≠ 0 →
      (calculateRegression points).line =
        some ⟨((points.length : ℚ) * sumXY points - sumX points * sumY points) / denomX points,
              (sumY points - regSlope points * sumX points) / (points.length : ℚ)⟩) ∧
      (denomX points = 0 → calculateRegression points = ⟨none, none⟩) := by
  have hlt : ¬ points.length < 3 := not_lt.mpr h3
  constructor
  · intro hd
    rw [calculateRegression, if_neg hlt, if_neg hd]
    rfl
  · intro hd
    rw [calculateRegression, if_neg hlt, if_pos hd]

theorem regression_formula_witness :
    (calculateRegression [⟨0, 0⟩, ⟨1, 1⟩, ⟨2, 3⟩]).line = some ⟨3 / 2, -1 / 6⟩ :=
  ((regression_formula [⟨0, 0⟩, ⟨1, 1⟩, ⟨2, 3⟩] (by decide)).1
      (by norm_num [denomX, sumXSquare, sumX, List.foldl])).trans
    (by norm_num [regSlope, denomX, sumX, sumY, sumXY, sumXSquare, List.foldl])

/-- C8: inserting a point whose coordinates exactly match a point already in
the list leaves the list, and hence both computed results, unchanged. -/
theorem addPoint_duplicate (points : List Point) (x y : ℚ)
    (h : ∃ p ∈ points, p.x = x ∧ p.y = y) :
    addPoint points x y = points ∧
      calculateCorrelation (addPoint points x y) = calculateCorrelation points ∧
      calculateRegression (addPoint points x y) = calculateRegression points := by
  have hmem : points.any (fun p => decide (p.x = x) && decide (p.y = y)) = true := by
    rcases h with ⟨p, hp, hx, hy⟩
    exact List.any_eq_true.mpr ⟨p, hp, by simp [hx, hy]⟩
  have he : addPoint points x y = points := by rw [addPoint, if_pos hmem]
  exact ⟨he, by rw [he], by rw [he]⟩

theorem addPoint_duplicate_witness :
    addPoint [⟨1, 2⟩, ⟨3, 4⟩] 3 4 = [⟨1, 2⟩, ⟨3, 4⟩] ∧
      calculateCorrelation (addPoint [⟨1, 2⟩, ⟨3, 4⟩] 3 4) =
        calculateCorrelation [⟨1, 2⟩, ⟨3, 4⟩] ∧
      calculateRegression (addPoint [⟨1, 2⟩, ⟨3, 4⟩] 3 4) =
        calculateRegression [⟨1, 2⟩, ⟨3, 4⟩] :=
  addPoint_duplicate [⟨1, 2⟩, ⟨3, 4⟩] 3 4 ⟨⟨3, 4⟩, by decide, rfl, rfl⟩

/-- C9: both computations are pure functions of the point list — two states with
the same point list recompute to identical published results, and recomputing an
unchanged state is idempotent (bit-identical results, no stale state). -/
theorem results_pure (s t : PlaygroundState) (h : s.points = t.points) :
    recompute s = recompute t ∧ recompute (recompute s) = recompute s := by
  constructor
  · rw [recompute, recompute, h]
  · rfl

theorem results_pure_witness :
    recompute ⟨[⟨1, 1⟩], some 5, none, none, none⟩ = recompute ⟨[⟨1, 1⟩], none, none, none, none⟩ ∧
      recompute (recompute ⟨[⟨1, 1⟩], some 5, none, none, none⟩) =
        recompute ⟨[⟨1, 1⟩], some 5, none, none, none⟩ :=
  results_pure ⟨[⟨1, 1⟩], some 5, none, none, none⟩ ⟨[⟨1, 1⟩], none, none, none, none⟩ rfl

/-- C10: with at least 3 points the returned correlation is never `null`: it is
`0` (from a guard or the dead `denominator === 0` ternary) or the quotient
`numerator / denominator`. -/
theorem correlation_never_null (points : List Point) (h3 : 3 ≤ points.length) :
    (calculateCorrelation points).correlation = some 0 ∨
      (calculateCorrelation points).correlation =
        some ((corrNumerator points : ℝ) / corrDenominator points) := by
  rw [calculateCorrelation, if_neg (not_lt.mpr h3)]
  by_cases hv : hasYVariation points
  · rw [if_neg (by simp [hv])]
    by_cases hd : |corrDenominator points| < 1 / 10000
    · rw [if_pos hd]
      exact Or.inl rfl
    · rw [if_neg hd]
      by_cases h0 : corrDenominator points = 0
      · rw [if_pos h0]
        exact Or.inl rfl
      · rw [if_neg h0]
        exact Or.inr rfl
  · rw [if_pos (by simp [hv])]
    exact Or.inl rfl

theorem correlation_never_null_witness :
    (calculateCorrelation [⟨0, 0⟩, ⟨1, 1⟩, ⟨2, 3⟩]).correlation = some 0 ∨
      (calculateCorrelation [⟨0, 0⟩, ⟨1, 1⟩, ⟨2, 3⟩]).correlation =
        some ((corrNumerator [⟨0, 0⟩, ⟨1, 1⟩, ⟨2, 3⟩] : ℝ) /
          corrDenominator [⟨0, 0⟩, ⟨1, 1⟩, ⟨2, 3⟩]) :=
  correlation_never_null [⟨0, 0⟩, ⟨1, 1⟩, ⟨2, 3⟩] (by decide)

/-- The collinear example (0,0),(1,1),(2,2) passes the y-variation guard. -/
theorem hasYVariation_collinear : hasYVariation [⟨0, 0⟩, ⟨1, 1⟩, ⟨2, 2⟩] = true := by
  apply List.any_eq_true.mpr
  refine ⟨⟨2, 2⟩, by simp, ?_⟩
  rw [decide_eq_true_eq,
    show yMean [⟨0, 0⟩, ⟨1, 1⟩, ⟨2, 2⟩] = 1 by norm_num [yMean, sumY, List.foldl]]
  norm_num

/-- The identical-x example (3,1),(3,4),(3,9) passes the y-variation guard. -/
theorem hasYVariation_identical_x : hasYVariation [⟨3, 1⟩, ⟨3, 4⟩, ⟨3, 9⟩] = true := by
  apply List.any_eq_true.mpr
  refine ⟨⟨3, 9⟩, by simp, ?_⟩
  rw [decide_eq_true_eq,
    show yMean [⟨3, 1⟩, ⟨3, 4⟩, ⟨3, 9⟩] = 14 / 3 by norm_num [yMean, sumY, List.foldl],
    show |(9 : ℚ) - 14 / 3| = 13 / 3 by rw [abs_of_nonneg] <;> norm_num]
  norm_num

/-- The correlation denominator of the collinear example evaluates to √36 = 6. -/
theorem corrDenominator_collinear : corrDenominator [⟨0, 0⟩, ⟨1, 1⟩, ⟨2, 2⟩] = 6 := by
  have h : ((denomX [⟨0, 0⟩, ⟨1, 1⟩, ⟨2, 2⟩] * denomY [⟨0, 0⟩, ⟨1, 1⟩, ⟨2, 2⟩] : ℚ) : ℝ) = 36 := by
    norm_num [denomX, denomY, sumX, sumY, sumXSquare, sumYSquare, List.foldl]
  rw [corrDenominator, h, show (36 : ℝ) = 6 ^ 2 by norm_num, Real.sqrt_sq (by norm_num)]

/-- The correlation denominator of the identical-x example evaluates to √0 = 0. -/
theorem corrDenominator_identical_x : corrDenominator [⟨3, 1⟩, ⟨3, 4⟩, ⟨3, 9⟩] = 0 := by
  have h : ((denomX [⟨3, 1⟩, ⟨3, 4⟩, ⟨3, 9⟩] * denomY [⟨3, 1⟩, ⟨3, 4⟩, ⟨3, 9⟩] : ℚ) : ℝ) = 0 := by
    norm_num [denomX, denomY, sumX, sumY, sumXSquare, sumYSquare, List.foldl]
  rw [corrDenominator, h, Real.sqrt_zero]

/-- C3: with at least 3 points and the y-variation guard passed, a correlation
denominator of magnitude below 0.0001 yields `{ correlation: 0, steps: null }`;
for the identical-x points (3,1),(3,4),(3,9) the correlation is 0 and the
regression line is null. -/
theorem denominator_guard :
    (∀ points : List Point, 3 ≤ points.length → hasYVariation points = true →
        |corrDenominator points| < 1 / 10000 →
        calculateCorrelation points = ⟨some 0, none⟩) ∧
      (calculateCorrelation [⟨3, 1⟩, ⟨3, 4⟩, ⟨3, 9⟩]).correlation = some 0 ∧
      (calculateRegression [⟨3, 1⟩, ⟨3, 4⟩, ⟨3, 9⟩]).line = none := by
  have key : ∀ points : List Point, 3 ≤ points.length → hasYVariation points = true →
      |corrDenominator points| < 1 / 10000 →
      calculateCorrelation points = ⟨some 0, none⟩ := by
    intro points h3 hv hd
    rw [calculateCorrelation, if_neg (not_lt.mpr h3), if_neg (by simp [hv]), if_pos hd]
  refine ⟨key, ?_, ?_⟩
  · rw [key [⟨3, 1⟩, ⟨3, 4⟩, ⟨3, 9⟩] (by decide) hasYVariation_identical_x
      (by rw [corrDenominator_identical_x]; norm_num)]
  · rw [calculateRegression, if_neg (by decide),
      if_pos (by norm_num [denomX, sumXSquare, sumX, List.foldl])]

theorem denominator_guard_witness :
    calculateCorrelation [⟨3, 1⟩, ⟨3, 4⟩, ⟨3, 9⟩] = ⟨some 0, none⟩ :=
  denominator_guard.1 [⟨3, 1⟩, ⟨3, 4⟩, ⟨3, 9⟩] (by decide) hasYVariation_identical_x
    (by rw [corrDenominator_identical_x]; norm_num)

/-- C4: when every y value is within 0.0001 of the mean of the y values and
there are at least 3 points, the y-variation guard fires and the result is
`{ correlation: 0, steps: null }`. -/
theorem constant_y_guard (points : List Point) (h3 : 3 ≤ points.length)
    (h : ∀ p ∈ points, |p.y - yMean points| ≤ 1 / 10000) :
    calculateCorrelation points = ⟨some 0, none⟩ := by
  have hv : hasYVariation points = false := by
    apply List.any_eq_false.mpr
    intro p hp
    simp only [decide_eq_true_eq, not_lt]
    exact h p hp
  rw [calculateCorrelation, if_neg (not_lt.mpr h3), if_pos (by simp [hv])]

theorem constant_y_guard_witness :
    calculateCorrelation [⟨0, 1⟩, ⟨1, 1⟩, ⟨2, 1⟩] = ⟨some 0, none⟩ :=
  constant_y_guard [⟨0, 1⟩, ⟨1, 1⟩, ⟨2, 1⟩] (by decide)
    (by
      intro p hp
      rw [show yMean [⟨0, 1⟩, ⟨1, 1⟩, ⟨2, 1⟩] = 1 by norm_num [yMean, sumY, List.foldl]]
      fin_cases hp <;> norm_num)

/-- C6: for the collinear points (0,0),(1,1),(2,2) the correlation is exactly 1
and the regression line is exactly y = 1·x + 0. -/
theorem collinear_example :
    (calculateCorrelation [⟨0, 0⟩, ⟨1, 1⟩, ⟨2, 2⟩]).correlation = some 1 ∧
      (calculateRegression [⟨0, 0⟩, ⟨1, 1⟩, ⟨2, 2⟩]).line = some ⟨1, 0⟩ := by
  constructor
  · rw [calculateCorrelation, if_neg (by decide), if_neg (by simp [hasYVariation_collinear]),
      corrDenominator_collinear,
      if_neg (by norm_num : ¬ |(6 : ℝ)| < 1 / 10000), if_neg (by norm_num : ¬ (6 : ℝ) = 0),
      show corrNumerator [⟨0, 0⟩, ⟨1, 1⟩, ⟨2, 2⟩] = 6 by
        norm_num [corrNumerator, sumXY, sumX, sumY, List.foldl]]
    norm_num
  · rw [calculateRegression, if_neg (by decide),
      if_neg (by norm_num [denomX, sumXSquare, sumX, List.foldl])]
    norm_num [regSlope, regIntercept, denomX, sumX, sumY, sumXY, sumXSquare, List.foldl]

/-- C7: for the constant-y input (0,5),(1,5),(2,5) the correlation is 0 via the
y-variation guard, and the regression line is y = 0·x + 5. -/
theorem constant_y_example :
    hasYVariation [⟨0, 5⟩, ⟨1, 5⟩, ⟨2, 5⟩] = false ∧
      calculateCorrelation [⟨0, 5⟩, ⟨1, 5⟩, ⟨2, 5⟩] = ⟨some 0, none⟩ ∧
      (calculateRegression [⟨0, 5⟩, ⟨1, 5⟩, ⟨2, 5⟩]).line = some ⟨0, 5⟩ := by
  have hv : hasYVariation [⟨0, 5⟩, ⟨1, 5⟩, ⟨2, 5⟩] = false := by
    norm_num [hasYVariation, yMean, sumY, List.foldl, List.any_cons]
  refine ⟨hv, ?_, ?_⟩
  · rw [calculateCorrelation, if_neg (by decide), if_pos (by simp [hv])]
  · rw [calculateRegression, if_neg (by decide),
      if_neg (by norm_num [denomX, sumXSquare, sumX, List.foldl])]
    norm_num [regSlope, regIntercept, denomX, sumX, sumY, sumXY, sumXSquare, List.foldl]

/-- C5: with at least 3 points and both degeneracy guards passed, the returned
correlation is exactly `numerator / denominator` — no clamping is applied — and
that value lies in [-1, 1]. -/
theorem correlation_in_range (points : List Point) (h3 : 3 ≤ points.length)
    (hv : hasYVariation points = true)
    (hd : ¬ |corrDenominator points| < 1 / 10000) :
    (calculateCorrelation points).correlation =
        some ((corrNumerator points : ℝ) / corrDenominator points) ∧
      -1 ≤ (corrNumerator points : ℝ) / corrDenominator points ∧
      (corrNumerator points : ℝ) / corrDenominator points ≤ 1 := by
  have hnn : 0 ≤ corrDenominator points := Real.sqrt_nonneg _
  have hge : 1 / 10000 ≤ corrDenominator points := by
    have h := not_lt.mp hd
    rwa [abs_of_nonneg hnn] at h
  have hpos : 0 < corrDenominator points := lt_of_lt_of_le (by norm_num) hge
  have h0 : corrDenominator points ≠ 0 := ne_of_gt hpos
  refine ⟨?_, ?_⟩
  · rw [calculateCorrelation, if_neg (not_lt.mpr h3), if_neg (by simp [hv]),
      if_neg hd, if_neg h0]
  · have hsq : (corrNumerator points : ℝ) ^ 2 ≤ ((denomX points * denomY points : ℚ) : ℝ) := by
      exact_mod_cast corrNumerator_sq_le points
    have habs : |(corrNumerator points : ℝ)| ≤ corrDenominator points := by
      calc |(corrNumerator points : ℝ)|
          = Real.sqrt ((corrNumerator points : ℝ) ^ 2) := (Real.sqrt_sq_eq_abs _).symm
        _ ≤ Real.sqrt ((denomX points * denomY points : ℚ) : ℝ) := Real.sqrt_le_sqrt hsq
        _ = corrDenominator points := rfl
    have hratio : |(corrNumerator points : ℝ) / corrDenominator points| ≤ 1 := by
      rw [abs_div, abs_of_nonneg hnn]
      exact (div_le_one hpos).mpr habs
    exact abs_le.mp hratio

theorem correlation_in_range_witness :
    (calculateCorrelation [⟨0, 0⟩, ⟨1, 1⟩, ⟨2, 2⟩]).correlation =
        some ((corrNumerator [⟨0, 0⟩, ⟨1, 1⟩, ⟨2, 2⟩] : ℝ) /
          corrDenominator [⟨0, 0⟩, ⟨1, 1⟩, ⟨2, 2⟩]) ∧
      -1 ≤ (corrNumerator [⟨0, 0⟩, ⟨1, 1⟩, ⟨2, 2⟩] : ℝ) /
          corrDenominator [⟨0, 0⟩, ⟨1, 1⟩, ⟨2, 2⟩] ∧
      (corrNumerator [⟨0, 0⟩, ⟨1, 1⟩, ⟨2, 2⟩] : ℝ) /
          corrDenominator [⟨0, 0⟩, ⟨1, 1⟩, ⟨2, 2⟩] ≤ 1 :=
  correlation_in_range [⟨0, 0⟩, ⟨1, 1⟩, ⟨2, 2⟩] (by decide) hasYVariation_collinear
    (by rw [corrDenominator_collinear]; norm_num)
